import Mathlib

/-!
Verification of the communication core of a MicroPython firmware
(`boot.py`, `main.py`, `usbproto.py`).

The embedding works at the byte level: a byte is a `Nat`, a byte stream is a
`List Nat`.  Structured messages (Python values produced by `ujson.loads` and
consumed by `ujson.dumps`) are modelled by the inductive type `Json`; numbers
are modelled as integers, which covers every message this protocol exchanges
(floating point values are outside the model).  Strings are raw byte
sequences, which matches MicroPython `ujson`: it emits non-ASCII bytes
verbatim and only escapes the quote, the backslash and control bytes.

Fallible Python code is modelled with `Option` and `Except`: `none` stands
for a read that would block forever, `Except.error m` for a raised exception
whose `str(e)` is `m`.
-/

/-- Bytes of an ASCII string literal, as natural numbers. -/
def strBytes (s : String) : List Nat := s.toList.map Char.toNat

/-- Python values that travel through `ujson`: `None`, booleans, integers,
(byte) strings, lists and dicts.  A dict is an association list in insertion
order, as in MicroPython. -/
inductive Json where
  | null
  | bool (b : Bool)
  | num (n : Int)
  | str (s : List Nat)
  | arr (xs : List Json)
  | obj (kvs : List (List Nat × Json))
deriving Repr

/-! ## Serialization: `ujson.dumps` -/

/-- Lowercase hexadecimal digit, as used by the `\u00xx` escapes of
`ujson.dumps`. -/
def hexDigit (n : Nat) : Nat := if n < 10 then 48 + n else 87 + n

/-- Byte-level escaping performed by `ujson.dumps` inside a string: the
quote and backslash get a backslash escape, printable bytes pass through,
newline, carriage return and tab get their short escapes, and the remaining
control bytes become `\u00xx`. -/
def escByte (b : Nat) : List Nat :=
  if b = 34 then [92, 34]
  else if b = 92 then [92, 92]
  else if 32 ≤ b then [b]
  else if b = 10 then [92, 110]
  else if b = 13 then [92, 114]
  else if b = 9 then [92, 116]
  else [92, 117, 48, 48, hexDigit (b / 16), hexDigit (b % 16)]

/-- Serialization of a string: quote, escaped bytes, quote. -/
def renderStr (s : List Nat) : List Nat := 34 :: s.flatMap escByte ++ [34]

/-- Decimal digits of a natural number (most significant first), written
with explicit fuel so that it is structurally recursive; `natDigs (n+1) n`
is always enough fuel. -/
def natDigs : Nat → Nat → List Nat
  | 0, _ => []
  | f + 1, n => if n < 10 then [48 + n] else natDigs f (n / 10) ++ [48 + n % 10]

/-- Decimal rendering of an integer, as `ujson.dumps` prints Python ints. -/
def renderInt : Int → List Nat
  | .ofNat n => natDigs (n + 1) n
  | .negSucc m => 45 :: natDigs (m + 2) (m + 1)

mutual
/-- Model of `ujson.dumps`: the exact byte sequence MicroPython emits for a
value, with the separators `", "` and `": "`. -/
def dumps : Json → List Nat
  | .null => strBytes "null"
  | .bool true => strBytes "true"
  | .bool false => strBytes "false"
  | .num n => renderInt n
  | .str s => renderStr s
  | .arr xs => 91 :: dumpsElems xs ++ [93]
  | .obj kvs => 123 :: dumpsItems kvs ++ [125]

/-- Elements of a serialized list, separated by `", "`. -/
def dumpsElems : List Json → List Nat
  | [] => []
  | [x] => dumps x
  | x :: y :: t => dumps x ++ 44 :: 32 :: dumpsElems (y :: t)

/-- Items of a serialized dict: `"key": value`, separated by `", "`. -/
def dumpsItems : List (List Nat × Json) → List Nat
  | [] => []
  | [(k, v)] => renderStr k ++ 58 :: 32 :: dumps v
  | (k, v) :: p :: t => renderStr k ++ 58 :: 32 :: dumps v ++ 44 :: 32 :: dumpsItems (p :: t)
end

/-! ## Parsing: `ujson.loads` -/

/-- JSON whitespace bytes: space, tab, newline, carriage return. -/
def isWsB (b : Nat) : Bool := b = 32 || b = 9 || b = 10 || b = 13

/-- Drop leading whitespace. -/
def skipWs (s : List Nat) : List Nat := s.dropWhile isWsB

/-- ASCII decimal digit test. -/
def isDigitB (b : Nat) : Bool := 48 ≤ b && b ≤ 57

/-- Value of one hexadecimal digit byte. -/
def hexVal (b : Nat) : Option Nat :=
  if 48 ≤ b && b ≤ 57 then some (b - 48)
  else if 97 ≤ b && b ≤ 102 then some (b - 87)
  else if 65 ≤ b && b ≤ 70 then some (b - 55)
  else none

/-- Single-character string escapes accepted by the JSON grammar. -/
def unesc (b : Nat) : Option Nat :=
  if b = 34 then some 34
  else if b = 92 then some 92
  else if b = 47 then some 47
  else if b = 98 then some 8
  else if b = 102 then some 12
  else if b = 110 then some 10
  else if b = 114 then some 13
  else if b = 116 then some 9
  else none

/-- UTF-8 encoding of a code point, used for `\uXXXX` escapes. -/
def utf8enc (n : Nat) : List Nat :=
  if n < 128 then [n]
  else if n < 2048 then [192 + n / 64, 128 + n % 64]
  else [224 + n / 4096, 128 + n / 64 % 64, 128 + n % 64]

/-- Body of a JSON string after the opening quote: bytes up to the closing
quote, with escapes decoded. -/
def parseStrBody : List Nat → Option (List Nat × List Nat)
  | [] => none
  | b :: t =>
    if b = 34 then some ([], t)
    else if b = 92 then
      match t with
      | [] => none
      | e :: t2 =>
        if e = 117 then
          match t2 with
          | h1 :: h2 :: h3 :: h4 :: t3 =>
            match hexVal h1, hexVal h2, hexVal h3, hexVal h4 with
            | some a, some b1, some c, some d =>
              (parseStrBody t3).map
                (fun r => (utf8enc (((a * 16 + b1) * 16 + c) * 16 + d) ++ r.1, r.2))
            | _, _, _, _ => none
          | _ => none
        else
          match unesc e with
          | some c => (parseStrBody t2).map (fun r => (c :: r.1, r.2))
          | none => none
    else (parseStrBody t).map (fun r => (b :: r.1, r.2))

/-- Numeric value of a digit run. -/
def digitsVal (ds : List Nat) : Nat := ds.foldl (fun a b => a * 10 + (b - 48)) 0

/-- Longest leading digit run, as a number; fails when there is none. -/
def parseNatPart (s : List Nat) : Option (Nat × List Nat) :=
  let ds := s.takeWhile isDigitB
  if ds.isEmpty then none else some (digitsVal ds, s.dropWhile isDigitB)

/-- Integer literal: an optional minus sign and a digit run. -/
def parseNum (s : List Nat) : Option (Int × List Nat) :=
  match s with
  | [] => none
  | b :: t =>
    if b = 45 then (parseNatPart t).map (fun r => (-(r.1 : Int), r.2))
    else (parseNatPart (b :: t)).map (fun r => ((r.1 : Int), r.2))

/-- One step of Python dict assignment `d[k] = v`: replace the value when
the key exists (keeping its position), else append the pair. -/
def insertKV (kvs : List (List Nat × Json)) (k : List Nat) (v : Json) :
    List (List Nat × Json) :=
  match kvs with
  | [] => [(k, v)]
  | (k', v') :: t => if k' = k then (k', v) :: t else (k', v') :: insertKV t k v

/-- Building a Python dict from parsed items by successive assignment. -/
def objFold (items : List (List Nat × Json)) : List (List Nat × Json) :=
  items.foldl (fun acc p => insertKV acc p.1 p.2) []

mutual
/-- Model of the value parser inside `ujson.loads`, with explicit fuel:
`none` on exhausted fuel or a syntax error.  Returns the value and the
unconsumed bytes. -/
def parseVal : Nat → List Nat → Option (Json × List Nat)
  | 0, _ => none
  | f + 1, s =>
    match skipWs s with
    | [] => none
    | b :: t =>
      if b = 110 then
        match t with
        | 117 :: 108 :: 108 :: r => some (.null, r)
        | _ => none
      else if b = 116 then
        match t with
        | 114 :: 117 :: 101 :: r => some (.bool true, r)
        | _ => none
      else if b = 102 then
        match t with
        | 97 :: 108 :: 115 :: 101 :: r => some (.bool false, r)
        | _ => none
      else if b = 34 then (parseStrBody t).map (fun r => (.str r.1, r.2))
      else if b = 91 then
        match skipWs t with
        | [] => none
        | c :: r =>
          if c = 93 then some (.arr [], r)
          else (parseElems f t).map (fun q => (.arr q.1, q.2))
      else if b = 123 then
        match skipWs t with
        | [] => none
        | c :: r =>
          if c = 125 then some (.obj [], r)
          else (parseItems f t).map (fun q => (.obj (objFold q.1), q.2))
      else (parseNum (b :: t)).map (fun r => (.num r.1, r.2))

/-- Comma-separated values up to the closing bracket. -/
def parseElems : Nat → List Nat → Option (List Json × List Nat)
  | 0, _ => none
  | f + 1, s =>
    match parseVal f s with
    | none => none
    | some (x, r) =>
      match skipWs r with
      | [] => none
      | c :: r2 =>
        if c = 44 then (parseElems f r2).map (fun q => (x :: q.1, q.2))
        else if c = 93 then some ([x], r2)
        else none

/-- Comma-separated `"key": value` items up to the closing brace. -/
def parseItems : Nat → List Nat → Option (List (List Nat × Json) × List Nat)
  | 0, _ => none
  | f + 1, s =>
    match skipWs s with
    | [] => none
    | c0 :: t0 =>
      if c0 = 34 then
        match parseStrBody t0 with
        | none => none
        | some (k, r) =>
          match skipWs r with
          | [] => none
          | c1 :: r2 =>
            if c1 = 58 then
              match parseVal f r2 with
              | none => none
              | some (v, r3) =>
                match skipWs r3 with
                | [] => none
                | c2 :: r4 =>
                  if c2 = 44 then (parseItems f r4).map (fun q => ((k, v) :: q.1, q.2))
                  else if c2 = 125 then some ([(k, v)], r4)
                  else none
            else none
      else none
end

/-- Error text of the `ValueError` MicroPython `ujson.loads` raises on
malformed input. -/
def jsonErrMsg : List Nat := strBytes "syntax error in JSON"

/-- Model of `ujson.loads` on a whole payload: parse one value, allow
trailing whitespace only; anything else raises. -/
def loadsE (s : List Nat) : Except (List Nat) Json :=
  match parseVal (s.length + 1) s with
  | some (j, r) => if skipWs r = [] then .ok j else .error jsonErrMsg
  | none => .error jsonErrMsg

/-! ## Frame codec (`usbproto.py`) -/

/-- Model of `ustruct.pack(">I", n)`: four big-endian bytes.  Like
MicroPython (and unlike CPython), values of 2^32 and above wrap around. -/
def pack_be32 (n : Nat) : List Nat :=
  [n / 16777216 % 256, n / 65536 % 256, n / 256 % 256, n % 256]

/-- Model of `ustruct.unpack(">I", hdr)` on a 4-byte header. -/
def unpack_be32 (bs : List Nat) : Nat :=
  match bs with
  | [a, b, c, d] => ((a * 256 + b) * 256 + c) * 256 + d
  | _ => 0

/-- Model of `read_n(dev, n)` over a finite byte stream: the first `n`
bytes and the remainder; `none` when the stream has fewer than `n` bytes,
in which case the real loop blocks forever waiting for more. -/
def read_n (s : List Nat) (n : Nat) : Option (List Nat × List Nat) :=
  if n ≤ s.length then some (s.take n, s.drop n) else none

/-- Framing layer of `recv_obj`: read a 4-byte header, take its big-endian
value as the payload length, read that many payload bytes.  The declared
length is used as-is; the code contains no validity check on it. -/
def recvFrame (s : List Nat) : Option (List Nat × List Nat) :=
  match read_n s 4 with
  | none => none
  | some (hdr, rest) =>
    match read_n rest (unpack_be32 hdr) with
    | none => none
    | some (payload, rest2) => some (payload, rest2)

/-- Model of `recv_obj`: framing layer, then `ujson.loads` on the payload.
`none` means the stream ran dry and the call blocks. -/
def recv_obj (s : List Nat) : Option (Except (List Nat) Json × List Nat) :=
  (recvFrame s).map (fun r => (loadsE r.1, r.2))

/-- Framing half of `send_obj`: a 4-byte big-endian length header followed
by the payload, with no upper bound imposed on the length. -/
def encode (p : List Nat) : List Nat := pack_be32 p.length ++ p

/-- Model of `send_obj`: frame the `ujson.dumps` serialization of the
message. -/
def send_obj (j : Json) : List Nat := encode (dumps j)

/-! ## Boot mode selection (`boot.py`) -/

/-- Environment of one `in_maintenance` call: which storage and pin probes
fault, whether the `MAINTENANCE` marker file exists, and the pin level.
`removeFault` is an `OSError` from `os.remove`, the error that call raises
when it fails. -/
structure BootEnv where
  listdirFault : Bool
  flagPresent : Bool
  removeFault : Bool
  pinFault : Bool
  pinLow : Bool

/-- Model of `in_maintenance()`: the decision (`true` is maintenance) and
whether the marker file still exists afterwards.  The marker branch runs
when `os.listdir` works and contains the marker: `os.remove` is attempted
with its `OSError` swallowed, and `true` is returned.  Otherwise the pin is
read; a faulting pin read yields `false`. -/
def in_maintenance (e : BootEnv) : Bool × Bool :=
  if !e.listdirFault && e.flagPresent then
    (true, e.removeFault)
  else
    (!e.pinFault && e.pinLow, e.flagPresent)

/-! ## Transport selection (`main.py`, `Transport.__init__`) -/

/-- The concrete channel a `Transport` can end up bound to. -/
inductive Channel where
  | usbData
  | usbConsole
  | uart (id baud tx rx : Nat)
deriving DecidableEq, Repr

/-- Environment of transport selection: whether the `usb_cdc` module
imported, and whether its `data` and `console` attributes hold a live
(non-`None`) channel. -/
structure CdcEnv where
  present : Bool
  data : Bool
  console : Bool

/-- Model of `Transport.__init__`: prefer `usb_cdc.data`, else
`usb_cdc.console`, else fall back to `UART(0, baudrate=115200, tx=Pin(0),
rx=Pin(1))`. -/
def Transport.init (e : CdcEnv) : Channel :=
  let dev : Option Channel :=
    if e.present then
      if e.data then some .usbData
      else if e.console then some .usbConsole
      else none
    else none
  dev.getD (Channel.uart 0 115200 0 1)

/-! ## Request dispatch (`main.py`) -/

/-- Firmware version constant. -/
def VERSION : List Nat := strBytes "0.1.0"

/-- Python `dict.get`: the value stored under a key, if any. -/
def lookupKey (kvs : List (List Nat × Json)) (k : List Nat) : Option Json :=
  match kvs with
  | [] => none
  | (k', v) :: t => if k' = k then some v else lookupKey t k

mutual
/-- Python `repr` of a value, to the extent the error messages of this
firmware can surface it (string quoting inside containers is simplified). -/
def pyRepr : Json → List Nat
  | .null => strBytes "None"
  | .bool true => strBytes "True"
  | .bool false => strBytes "False"
  | .num n => renderInt n
  | .str s => 39 :: s ++ [39]
  | .arr xs => 91 :: pyReprElems xs ++ [93]
  | .obj kvs => 123 :: pyReprItems kvs ++ [125]

/-- Comma-separated `repr` of list elements. -/
def pyReprElems : List Json → List Nat
  | [] => []
  | [x] => pyRepr x
  | x :: y :: t => pyRepr x ++ 44 :: 32 :: pyReprElems (y :: t)

/-- Comma-separated `repr` of dict items. -/
def pyReprItems : List (List Nat × Json) → List Nat
  | [] => []
  | [(k, v)] => 39 :: k ++ 39 :: 58 :: 32 :: pyRepr v
  | (k, v) :: p :: t => 39 :: k ++ 39 :: 58 :: 32 :: pyRepr v ++ 44 :: 32 :: pyReprItems (p :: t)
end

/-- Python `str` of a value, as `"%s" % v` formats it. -/
def pyStr : Json → List Nat
  | .str s => s
  | j => pyRepr j

/-- Python `str` of an optional value; `none` is Python `None`. -/
def pyStrOpt : Option Json → List Nat
  | none => strBytes "None"
  | some j => pyStr j

/-- Python `t == "name"` for the value `t = req.get("type")`: true exactly
when the value is a string with those bytes. -/
def typeIs (t : Option Json) (name : List Nat) : Bool :=
  match t with
  | some (.str s) => s == name
  | _ => false

/-- The `UNKNOWN_CMD` error response built by the final line of
`dispatch`. -/
def unknownCmdResp (t : Option Json) : Json :=
  .obj [(strBytes "type", .str (strBytes "error")),
        (strBytes "code", .str (strBytes "UNKNOWN_CMD")),
        (strBytes "message", .str (strBytes "Unknown command: " ++ pyStrOpt t))]

/-- Model of `dispatch(req)` for a dict request.  `ticks` is the value
`time.ticks_ms()` returns during this call and `heapFree` the value
`gc.mem_free()` returns after the `gc.collect()` of `get_status`; both are
environment inputs. -/
def dispatch (ticks heapFree : Nat) (req : List (List Nat × Json)) : Json :=
  let t := lookupKey req (strBytes "type")
  if typeIs t (strBytes "ping") then
    .obj [(strBytes "type", .str (strBytes "pong")),
          (strBytes "ts", .num (ticks : Int)),
          (strBytes "version", .str VERSION)]
  else if typeIs t (strBytes "get_status") then
    .obj [(strBytes "type", .str (strBytes "status")),
          (strBytes "uptime_ms", .num (ticks : Int)),
          (strBytes "heap_free", .num (heapFree : Int)),
          (strBytes "version", .str VERSION)]
  else if typeIs t (strBytes "echo") then
    .obj [(strBytes "type", .str (strBytes "echo")),
          (strBytes "data", (lookupKey req (strBytes "data")).getD .null)]
  else unknownCmdResp t

/-- Python type name, for the `AttributeError` text below. -/
def typeName : Json → List Nat
  | .null => strBytes "NoneType"
  | .bool _ => strBytes "bool"
  | .num _ => strBytes "int"
  | .str _ => strBytes "str"
  | .arr _ => strBytes "list"
  | .obj _ => strBytes "dict"

/-- Model of calling `dispatch` on an arbitrary parsed payload: on a dict
it returns the response; on any other value `req.get` raises
`AttributeError`. -/
def dispatchE (ticks heapFree : Nat) (req : Json) : Except (List Nat) Json :=
  match req with
  | .obj kvs => .ok (dispatch ticks heapFree kvs)
  | j => .error (39 :: typeName j ++ strBytes "' object has no attribute 'get'")

/-! ## The serving loop (`main.py`, `main`) -/

/-- Observable actions of one loop iteration.  The alphabet deliberately
includes actions this code never performs (`sleep`, `mkFlag`, `reboot`) so
their absence is expressible. -/
inductive LoopAct where
  | write (j : Json)
  | failedWrite (j : Json)
  | sleep (ms : Nat)
  | mkFlag
  | reboot

/-- Environment of one loop iteration: an optional transport read fault
(with its exception text), the payload bytes the framing layer delivered,
the clock and heap readings, an optional fault of the response write, and
whether the best-effort error write also faults. -/
structure IterEnv where
  readFault : Option (List Nat)
  payload : List Nat
  ticks : Nat
  heapFree : Nat
  respWriteFault : Option (List Nat)
  errWriteFault : Bool

/-- The error response the loop boundary sends when an iteration raised
with message `m`. -/
def excObj (m : List Nat) : Json :=
  .obj [(strBytes "type", .str (strBytes "error")),
        (strBytes "code", .str (strBytes "EXC")),
        (strBytes "message", .str m)]

/-- The `except` block of the loop: try to write the `EXC` response;
swallow a failure of that write. -/
def errorPath (e : IterEnv) (m : List Nat) : List LoopAct :=
  if e.errWriteFault then [.failedWrite (excObj m)] else [.write (excObj m)]

/-- One iteration of the serving loop: read and parse, dispatch, write;
any raise lands in `errorPath`.  A faulting response write appears as
`failedWrite` followed by the error path for its exception. -/
def serveStep (e : IterEnv) : List LoopAct :=
  match e.readFault with
  | some m => errorPath e m
  | none =>
    match loadsE e.payload with
    | .error m => errorPath e m
    | .ok req =>
      match dispatchE e.ticks e.heapFree req with
      | .error m => errorPath e m
      | .ok resp =>
        match e.respWriteFault with
        | some m => .failedWrite resp :: errorPath e m
        | none => [.write resp]

/-- The serving loop over a finite trace of iteration environments: every
iteration runs, whatever the previous one did. -/
def serve : List IterEnv → List LoopAct
  | [] => []
  | e :: es => serveStep e ++ serve es

/-- The single message an iteration answers with when its transport works:
either the dispatched response or the `EXC` error response. -/
def iterOut (e : IterEnv) : Json :=
  match e.readFault with
  | some m => excObj m
  | none =>
    match loadsE e.payload with
    | .error m => excObj m
    | .ok req =>
      match dispatchE e.ticks e.heapFree req with
      | .error m => excObj m
      | .ok resp => resp

/-- Model of `main()`: build the transport once, then serve forever.  The
channel component does not depend on the iteration trace. -/
def mainModel (env : CdcEnv) (es : List IterEnv) : Channel × List LoopAct :=
  (Transport.init env, serve es)

/-! ## Frame codec lemmas -/

theorem unpack_pack (n : Nat) (h : n < 4294967296) : unpack_be32 (pack_be32 n) = n := by
  simp only [pack_be32, unpack_be32]
  omega

theorem read_n_exact (p rest : List Nat) : read_n (p ++ rest) p.length = some (p, rest) := by
  simp [read_n, List.take_left, List.drop_left]

theorem recvFrame_pack (v : Nat) (rest : List Nat) (hv : v < 4294967296)
    (hlen : v ≤ rest.length) :
    recvFrame (pack_be32 v ++ rest) = some (rest.take v, rest.drop v) := by
  have h4 : (pack_be32 v).length = 4 := rfl
  have hr : read_n (pack_be32 v ++ rest) 4 = some (pack_be32 v, rest) := by
    have := read_n_exact (pack_be32 v) rest
    rwa [h4] at this
  simp only [recvFrame, hr]
  simp only [unpack_pack v hv, read_n, hlen, if_pos]

theorem recvFrame_encode (p rest : List Nat) (hp : p.length < 4294967296) :
    recvFrame (encode p ++ rest) = some (p, rest) := by
  have := recvFrame_pack p.length (p ++ rest) hp (by simp)
  simpa [encode, List.take_left, List.drop_left] using this

/-! ## Decimal rendering lemmas -/

theorem natDigs_ne_nil (f n : Nat) : natDigs (f + 1) n ≠ [] := by
  simp only [natDigs]
  split
  · simp
  · simp

theorem natDigs_digits (f n : Nat) : ∀ b ∈ natDigs f n, 48 ≤ b ∧ b ≤ 57 := by
  induction f generalizing n with
  | zero => simp [natDigs]
  | succ f ih =>
    intro b hb
    simp only [natDigs] at hb
    split at hb
    · simp only [List.mem_singleton] at hb
      omega
    · rcases List.mem_append.1 hb with h | h
      · exact ih (n / 10) b h
      · simp only [List.mem_singleton] at h
        omega

theorem digitsVal_go (f : Nat) :
    ∀ n : Nat, n < 10 ^ f → ∀ acc : Nat,
      (natDigs f n).foldl (fun a b => a * 10 + (b - 48)) acc
        = acc * 10 ^ (natDigs f n).length + n := by
  induction f with
  | zero =>
    intro n h acc
    have hn : n = 0 := by omega
    subst hn
    simp [natDigs]
  | succ f ih =>
    intro n h acc
    by_cases h10 : n < 10
    · simp [natDigs, h10]
    · have hx : (10 : Nat) ^ (f + 1) = 10 ^ f * 10 := pow_succ 10 f
      have hd : n / 10 < 10 ^ f := by omega
      simp only [natDigs, if_neg h10, List.foldl_append, List.foldl_cons, List.foldl_nil,
        List.length_append, List.length_cons, List.length_nil]
      rw [ih (n / 10) hd acc]
      have hp : (10 : Nat) ^ ((natDigs f (n / 10)).length + 1)
          = 10 ^ (natDigs f (n / 10)).length * 10 := pow_succ 10 _
      rw [hp]
      have hdm := Nat.div_add_mod n 10
      set A := (10 : Nat) ^ (natDigs f (n / 10)).length with hA
      have : acc * (A * 10) = acc * A * 10 := by ring
      omega

theorem digitsVal_natDigs (n : Nat) : digitsVal (natDigs (n + 1) n) = n := by
  have h : n < 10 ^ (n + 1) := by
    calc n < 10 ^ n := Nat.lt_pow_self (by norm_num) n
    _ ≤ 10 ^ (n + 1) := Nat.pow_le_pow_right (by norm_num) (Nat.le_succ n)
  simpa [digitsVal] using digitsVal_go (n + 1) n h 0

/-- Bytes that may legally follow a serialized value: the empty stream or
anything not starting with a digit (commas, brackets, braces, whitespace). -/
def notDigitStart : List Nat → Bool
  | [] => true
  | b :: _ => !isDigitB b

theorem takeWhile_all_append (p : Nat → Bool) (l r : List Nat)
    (hl : ∀ b ∈ l, p b = true) (hr : r.takeWhile p = []) :
    (l ++ r).takeWhile p = l ∧ (l ++ r).dropWhile p = r := by
  induction l with
  | nil =>
    refine ⟨hr, ?_⟩
    cases r with
    | nil => rfl
    | cons b t =>
      simp only [List.takeWhile_cons] at hr
      by_cases hb : p b
      · simp [hb] at hr
      · simp [List.dropWhile_cons, hb]
  | cons a l ih =>
    have ha : p a = true := hl a (List.mem_cons_self a l)
    obtain ⟨h1, h2⟩ := ih (fun b hb => hl b (List.mem_cons_of_mem a hb))
    constructor
    · simp [List.takeWhile_cons, ha, h1]
    · simp [List.dropWhile_cons, ha, h2]

theorem parseNatPart_digs (n : Nat) (rest : List Nat)
    (hrest : notDigitStart rest = true) :
    parseNatPart (natDigs (n + 1) n ++ rest) = some (n, rest) := by
  have hall : ∀ b ∈ natDigs (n + 1) n, isDigitB b = true := by
    intro b hb
    have := natDigs_digits (n + 1) n b hb
    simp only [isDigitB, Bool.and_eq_true, decide_eq_true_eq]
    omega
  have hrtw : rest.takeWhile isDigitB = [] := by
    cases rest with
    | nil => rfl
    | cons b t =>
      simp only [notDigitStart, Bool.not_eq_true'] at hrest
      simp [List.takeWhile_cons, hrest]
  obtain ⟨h1, h2⟩ := takeWhile_all_append isDigitB _ rest hall hrtw
  have hne := natDigs_ne_nil n n
  simp only [parseNatPart, h1, h2]
  rw [if_neg (by simpa [List.isEmpty_iff] using hne)]
  rw [digitsVal_natDigs]

theorem parseNum_renderInt (i : Int) (rest : List Nat)
    (hrest : notDigitStart rest = true) :
    parseNum (renderInt i ++ rest) = some (i, rest) := by
  cases i with
  | ofNat n =>
    obtain ⟨d, t, hd⟩ : ∃ d t, natDigs (n + 1) n = d :: t := by
      cases h : natDigs (n + 1) n with
      | nil => exact absurd h (natDigs_ne_nil n n)
      | cons d t => exact ⟨d, t, rfl⟩
    have hdig := natDigs_digits (n + 1) n d (by rw [hd]; exact List.mem_cons_self d t)
    have hstep : renderInt (Int.ofNat n) ++ rest = d :: (t ++ rest) := by
      simp [renderInt, hd]
    rw [hstep]
    simp only [parseNum, if_neg (show d ≠ 45 by omega)]
    have : d :: (t ++ rest) = natDigs (n + 1) n ++ rest := by simp [hd]
    rw [this, parseNatPart_digs n rest hrest]
    rfl
  | negSucc m =>
    have hstep : renderInt (Int.negSucc m) ++ rest
        = 45 :: (natDigs (m + 2) (m + 1) ++ rest) := by
      simp [renderInt]
    rw [hstep]
    simp only [parseNum, if_pos rfl]
    rw [show natDigs (m + 2) (m + 1) = natDigs ((m + 1) + 1) (m + 1) from rfl,
      parseNatPart_digs (m + 1) rest hrest]
    simp [Int.negSucc_eq]

/-! ## String escaping lemmas -/

theorem hexVal_hexDigit (x : Nat) (h : x < 16) : hexVal (hexDigit x) = some x := by
  unfold hexDigit hexVal
  split_ifs <;>
    simp_all only [Bool.and_eq_true, decide_eq_true_eq, not_and, not_le,
      Option.some.injEq] <;>
    omega

theorem skipWs_cons_of_not (b : Nat) (l : List Nat) (h : isWsB b = false) :
    skipWs (b :: l) = b :: l := by
  simp [skipWs, List.dropWhile_cons, h]

theorem skipWs_ws_append (pre l : List Nat) (h : ∀ b ∈ pre, isWsB b = true) :
    skipWs (pre ++ l) = skipWs l := by
  induction pre with
  | nil => rfl
  | cons a t ih =>
    have ha : isWsB a = true := h a (List.mem_cons_self a t)
    simp only [List.cons_append, skipWs, List.dropWhile_cons, ha, if_true]
    exact ih fun b hb => h b (List.mem_cons_of_mem a hb)

theorem parseStrBody_escape : ∀ (s rest : List Nat),
    parseStrBody (s.flatMap escByte ++ 34 :: rest) = some (s, rest)
  | [], rest => by
    rw [parseStrBody.eq_def]
    simp
  | c :: s, rest => by
    have ih := parseStrBody_escape s rest
    have hcons : (c :: s).flatMap escByte ++ 34 :: rest
        = escByte c ++ (s.flatMap escByte ++ 34 :: rest) := by
      simp
    rw [hcons]
    by_cases h34 : c = 34
    · subst h34
      rw [show escByte 34 = [92, 34] from rfl]
      rw [List.cons_append, List.cons_append, List.nil_append, parseStrBody.eq_def]
      simp [unesc, ih]
    · by_cases h92 : c = 92
      · subst h92
        rw [show escByte 92 = [92, 92] from rfl]
        rw [List.cons_append, List.cons_append, List.nil_append, parseStrBody.eq_def]
        simp [unesc, ih]
      · by_cases h32 : 32 ≤ c
        · have hesc : escByte c = [c] := by simp [escByte, h34, h92, h32]
          rw [hesc, List.cons_append, List.nil_append, parseStrBody.eq_def]
          simp [h34, h92, ih]
        · by_cases h10 : c = 10
          · subst h10
            rw [show escByte 10 = [92, 110] from rfl]
            rw [List.cons_append, List.cons_append, List.nil_append, parseStrBody.eq_def]
            simp [unesc, ih]
          · by_cases h13 : c = 13
            · subst h13
              rw [show escByte 13 = [92, 114] from rfl]
              rw [List.cons_append, List.cons_append, List.nil_append, parseStrBody.eq_def]
              simp [unesc, ih]
            · by_cases h9 : c = 9
              · subst h9
                rw [show escByte 9 = [92, 116] from rfl]
                rw [List.cons_append, List.cons_append, List.nil_append, parseStrBody.eq_def]
                simp [unesc, ih]
              · have hesc : escByte c
                    = [92, 117, 48, 48, hexDigit (c / 16), hexDigit (c % 16)] := by
                  simp [escByte, h34, h92, h32, h10, h13, h9]
                rw [hesc]
                simp only [List.cons_append, List.nil_append]
                rw [parseStrBody.eq_def]
                simp only [reduceIte, show hexVal 48 = some 0 from rfl,
                  hexVal_hexDigit (c / 16) (by omega),
                  hexVal_hexDigit (c % 16) (by omega), ih]
                have hval : ((0 * 16 + 0) * 16 + c / 16) * 16 + c % 16 = c := by omega
                rw [hval]
                have hu : utf8enc c = [c] := by
                  simp [utf8enc]
                  omega
                rw [hu]
                rfl

/-! ## Fuel and well-formedness -/

mutual
/-- Parser fuel sufficient for one serialized value. -/
def jfuel : Json → Nat
  | .null => 1
  | .bool _ => 1
  | .num _ => 1
  | .str _ => 1
  | .arr xs => 1 + elemsFuel xs
  | .obj kvs => 1 + itemsFuel kvs

/-- Parser fuel sufficient for a serialized element list. -/
def elemsFuel : List Json → Nat
  | [] => 0
  | x :: xs => 1 + jfuel x + elemsFuel xs

/-- Parser fuel sufficient for a serialized item list. -/
def itemsFuel : List (List Nat × Json) → Nat
  | [] => 0
  | (_, v) :: t => 1 + jfuel v + itemsFuel t
end

/-- Values that denote an actual Python object: every dict has pairwise
distinct keys (a Python dict cannot hold one key twice). -/
inductive WFJ : Json → Prop where
  | null : WFJ .null
  | bool (b : Bool) : WFJ (.bool b)
  | num (n : Int) : WFJ (.num n)
  | str (s : List Nat) : WFJ (.str s)
  | arr (xs : List Json) : (∀ x ∈ xs, WFJ x) → WFJ (.arr xs)
  | obj (kvs : List (List Nat × Json)) :
      kvs.Pairwise (fun p q => p.1 ≠ q.1) → (∀ p ∈ kvs, WFJ p.2) → WFJ (.obj kvs)

theorem insertKV_append (acc : List (List Nat × Json)) (k : List Nat) (v : Json)
    (h : ∀ p ∈ acc, p.1 ≠ k) : insertKV acc k v = acc ++ [(k, v)] := by
  induction acc with
  | nil => rfl
  | cons q t ih =>
    obtain ⟨k', v'⟩ := q
    have hk : k' ≠ k := h (k', v') (List.mem_cons_self _ _)
    rw [insertKV.eq_def]
    simp only [hk, if_false, List.cons_append, List.cons.injEq, true_and]
    exact ih fun p hp => h p (List.mem_cons_of_mem _ hp)

theorem objFold_go (kvs : List (List Nat × Json)) :
    ∀ acc, kvs.Pairwise (fun p q => p.1 ≠ q.1) →
    (∀ p ∈ kvs, ∀ q ∈ acc, q.1 ≠ p.1) →
    kvs.foldl (fun acc p => insertKV acc p.1 p.2) acc = acc ++ kvs := by
  induction kvs with
  | nil => simp
  | cons p t ih =>
    intro acc hpw hdisj
    obtain ⟨k, v⟩ := p
    rw [List.foldl_cons,
      insertKV_append acc k v (fun q hq => hdisj (k, v) (List.mem_cons_self _ _) q hq)]
    rw [ih (acc ++ [(k, v)]) (List.Pairwise.of_cons hpw) ?_]
    · simp
    · intro p hp q hq
      rcases List.mem_append.1 hq with hq | hq
      · exact hdisj p (List.mem_cons_of_mem _ hp) q hq
      · simp only [List.mem_singleton] at hq
        subst hq
        exact (List.pairwise_cons.1 hpw).1 p hp

theorem objFold_id (kvs : List (List Nat × Json))
    (h : kvs.Pairwise (fun p q => p.1 ≠ q.1)) : objFold kvs = kvs := by
  simpa [objFold] using objFold_go kvs [] h (by simp)

/-- First byte of a serialized value: a keyword letter, a minus sign, a
digit, a quote or an opening bracket or brace. -/
theorem dumps_head (j : Json) : ∃ b t, dumps j = b :: t ∧
    (b = 110 ∨ b = 116 ∨ b = 102 ∨ b = 45 ∨ (48 ≤ b ∧ b ≤ 57) ∨ b = 34 ∨ b = 91 ∨ b = 123) := by
  cases j with
  | null => exact ⟨110, _, rfl, by omega⟩
  | bool b =>
    cases b with
    | true => exact ⟨116, _, rfl, by omega⟩
    | false => exact ⟨102, _, rfl, by omega⟩
  | num n =>
    cases n with
    | ofNat m =>
      obtain ⟨d, t, hd⟩ : ∃ d t, natDigs (m + 1) m = d :: t := by
        cases h : natDigs (m + 1) m with
        | nil => exact absurd h (natDigs_ne_nil m m)
        | cons d t => exact ⟨d, t, rfl⟩
      have hdig := natDigs_digits (m + 1) m d (by rw [hd]; exact List.mem_cons_self d t)
      exact ⟨d, t, by simp [dumps, renderInt, hd], by omega⟩
    | negSucc m => exact ⟨45, natDigs (m + 2) (m + 1), by simp [dumps, renderInt], by omega⟩
  | str s => exact ⟨34, s.flatMap escByte ++ [34], by simp [dumps, renderStr], by omega⟩
  | arr xs => exact ⟨91, dumpsElems xs ++ [93], by rw [dumps]; rfl, by omega⟩
  | obj kvs => exact ⟨123, dumpsItems kvs ++ [125], by rw [dumps]; rfl, by omega⟩

/-! ## Round-trip of the message codec -/

theorem dumps_head_ws (j : Json) :
    ∃ b t, dumps j = b :: t ∧ isWsB b = false ∧ b ≠ 93 := by
  obtain ⟨b, t, he, hb⟩ := dumps_head j
  refine ⟨b, t, he, ?_, by omega⟩
  simp only [isWsB, Bool.or_eq_false_iff, decide_eq_false_iff_not]
  omega

theorem skipWs_pre_cons (pre : List Nat) (b : Nat) (t : List Nat)
    (hpre : ∀ x ∈ pre, isWsB x = true) (hb : isWsB b = false) :
    skipWs (pre ++ b :: t) = b :: t := by
  rw [skipWs_ws_append pre _ hpre, skipWs_cons_of_not b t hb]

theorem jfuel_pos (j : Json) : 1 ≤ jfuel j := by
  cases j <;> simp [jfuel]

mutual
theorem parseVal_dumps : ∀ (j : Json), WFJ j →
    ∀ (f : Nat) (pre rest : List Nat), jfuel j ≤ f →
    (∀ b ∈ pre, isWsB b = true) → notDigitStart rest = true →
    parseVal f (pre ++ dumps j ++ rest) = some (j, rest)
  | .null, _, f, pre, rest, hf, hpre, _ => by
    obtain ⟨f', rfl⟩ : ∃ f', f = f' + 1 :=
      ⟨f - 1, by have := jfuel_pos Json.null; omega⟩
    have hs : skipWs (pre ++ dumps Json.null ++ rest)
        = 110 :: (117 :: 108 :: 108 :: rest) := by
      rw [List.append_assoc]
      exact skipWs_pre_cons pre 110 _ hpre rfl
    simp only [List.append_assoc] at hs
    rw [parseVal.eq_def]
    simp [hs]
  | .bool true, _, f, pre, rest, hf, hpre, _ => by
    obtain ⟨f', rfl⟩ : ∃ f', f = f' + 1 :=
      ⟨f - 1, by have := jfuel_pos (Json.bool true); omega⟩
    have hs : skipWs (pre ++ dumps (Json.bool true) ++ rest)
        = 116 :: (114 :: 117 :: 101 :: rest) := by
      rw [List.append_assoc]
      exact skipWs_pre_cons pre 116 _ hpre rfl
    simp only [List.append_assoc] at hs
    rw [parseVal.eq_def]
    simp [hs]
  | .bool false, _, f, pre, rest, hf, hpre, _ => by
    obtain ⟨f', rfl⟩ : ∃ f', f = f' + 1 :=
      ⟨f - 1, by have := jfuel_pos (Json.bool false); omega⟩
    have hs : skipWs (pre ++ dumps (Json.bool false) ++ rest)
        = 102 :: (97 :: 108 :: 115 :: 101 :: rest) := by
      rw [List.append_assoc]
      exact skipWs_pre_cons pre 102 _ hpre rfl
    simp only [List.append_assoc] at hs
    rw [parseVal.eq_def]
    simp [hs]
  | .num n, _, f, pre, rest, hf, hpre, hrest => by
    obtain ⟨f', rfl⟩ : ∃ f', f = f' + 1 :=
      ⟨f - 1, by have := jfuel_pos (Json.num n); omega⟩
    obtain ⟨d, t0, hd, hfacts⟩ :
        ∃ d t0, renderInt n = d :: t0 ∧ (d = 45 ∨ (48 ≤ d ∧ d ≤ 57)) := by
      cases n with
      | ofNat m =>
        obtain ⟨d, t, hdt⟩ : ∃ d t, natDigs (m + 1) m = d :: t := by
          cases h : natDigs (m + 1) m with
          | nil => exact absurd h (natDigs_ne_nil m m)
          | cons d t => exact ⟨d, t, rfl⟩
        have hdig := natDigs_digits (m + 1) m d (by rw [hdt]; exact List.mem_cons_self d t)
        exact ⟨d, t, by simp [renderInt, hdt], Or.inr hdig⟩
      | negSucc m => exact ⟨45, natDigs (m + 2) (m + 1), rfl, Or.inl rfl⟩
    have hds : dumps (Json.num n) ++ rest = d :: (t0 ++ rest) := by
      rw [show dumps (Json.num n) = renderInt n from by rw [dumps], hd]
      rfl
    have hs : skipWs (pre ++ dumps (Json.num n) ++ rest) = d :: (t0 ++ rest) := by
      rw [List.append_assoc, hds]
      exact skipWs_pre_cons pre d _ hpre
        (by simp only [isWsB, Bool.or_eq_false_iff, decide_eq_false_iff_not]; omega)
    rw [parseVal.eq_def]
    simp only [hs]
    rw [if_neg (by omega : ¬d = 110), if_neg (by omega : ¬d = 116),
      if_neg (by omega : ¬d = 102), if_neg (by omega : ¬d = 34),
      if_neg (by omega : ¬d = 91), if_neg (by omega : ¬d = 123)]
    rw [show d :: (t0 ++ rest) = renderInt n ++ rest from by rw [hd]; rfl]
    rw [parseNum_renderInt n rest hrest]
    rfl
  | .str s, _, f, pre, rest, hf, hpre, _ => by
    obtain ⟨f', rfl⟩ : ∃ f', f = f' + 1 :=
      ⟨f - 1, by have := jfuel_pos (Json.str s); omega⟩
    have hs : skipWs (pre ++ dumps (Json.str s) ++ rest)
        = 34 :: (s.flatMap escByte ++ 34 :: rest) := by
      rw [List.append_assoc]
      have heq : dumps (Json.str s) ++ rest = 34 :: (s.flatMap escByte ++ 34 :: rest) := by
        rw [show dumps (Json.str s) = renderStr s from by rw [dumps], renderStr]
        simp
      rw [heq]
      exact skipWs_pre_cons pre 34 _ hpre rfl
    rw [parseVal.eq_def]
    simp only [hs, parseStrBody_escape s rest]
    rfl
  | .arr [], _, f, pre, rest, hf, hpre, _ => by
    obtain ⟨f', rfl⟩ : ∃ f', f = f' + 1 :=
      ⟨f - 1, by have := jfuel_pos (Json.arr []); omega⟩
    have hs : skipWs (pre ++ dumps (Json.arr []) ++ rest) = 91 :: (93 :: rest) := by
      rw [List.append_assoc]
      have heq : dumps (Json.arr []) ++ rest = 91 :: (93 :: rest) := by
        rw [dumps]
        rfl
      rw [heq]
      exact skipWs_pre_cons pre 91 _ hpre rfl
    simp only [List.append_assoc] at hs
    rw [parseVal.eq_def]
    simp [hs, skipWs_cons_of_not 93 rest rfl]
  | .arr (x :: xs), hwf, f, pre, rest, hf, hpre, _ => by
    have hwfs : ∀ y ∈ x :: xs, WFJ y := by
      cases hwf with
      | arr _ h => exact h
    obtain ⟨f', rfl⟩ : ∃ f', f = f' + 1 :=
      ⟨f - 1, by have := jfuel_pos (Json.arr (x :: xs)); omega⟩
    have helems : elemsFuel (x :: xs) ≤ f' := by
      rw [jfuel] at hf
      omega
    obtain ⟨b0, t0, hx, hbws, hb93⟩ := dumps_head_ws x
    obtain ⟨T', hT⟩ :
        ∃ T', dumpsElems (x :: xs) ++ 93 :: rest = b0 :: T' := by
      cases xs with
      | nil =>
        refine ⟨t0 ++ 93 :: rest, ?_⟩
        rw [show dumpsElems [x] = dumps x from by rw [dumpsElems], hx]
        simp
      | cons y t =>
        refine ⟨t0 ++ 44 :: 32 :: dumpsElems (y :: t) ++ 93 :: rest, ?_⟩
        rw [show dumpsElems (x :: y :: t) = dumps x ++ 44 :: 32 :: dumpsElems (y :: t)
          from by rw [dumpsElems], hx]
        simp
    have hs : skipWs (pre ++ dumps (Json.arr (x :: xs)) ++ rest)
        = 91 :: (dumpsElems (x :: xs) ++ 93 :: rest) := by
      rw [List.append_assoc]
      have heq : dumps (Json.arr (x :: xs)) ++ rest
          = 91 :: (dumpsElems (x :: xs) ++ 93 :: rest) := by
        rw [dumps]
        simp
      rw [heq]
      exact skipWs_pre_cons pre 91 _ hpre rfl
    rw [parseVal.eq_def]
    simp only [hs, hT, skipWs_cons_of_not b0 T' hbws]
    rw [if_neg hb93]
    rw [show b0 :: T' = [] ++ dumpsElems (x :: xs) ++ 93 :: rest from by rw [← hT]; rfl]
    rw [parseElems_dumps (x :: xs) (List.cons_ne_nil x xs) hwfs f' [] rest helems (by simp)]
    rfl
  | .obj [], _, f, pre, rest, hf, hpre, _ => by
    obtain ⟨f', rfl⟩ : ∃ f', f = f' + 1 :=
      ⟨f - 1, by have := jfuel_pos (Json.obj []); omega⟩
    have hs : skipWs (pre ++ dumps (Json.obj []) ++ rest) = 123 :: (125 :: rest) := by
      rw [List.append_assoc]
      have heq : dumps (Json.obj []) ++ rest = 123 :: (125 :: rest) := by
        rw [dumps]
        rfl
      rw [heq]
      exact skipWs_pre_cons pre 123 _ hpre rfl
    simp only [List.append_assoc] at hs
    rw [parseVal.eq_def]
    simp [hs, skipWs_cons_of_not 125 rest rfl]
  | .obj (p :: t), hwf, f, pre, rest, hf, hpre, _ => by
    have hpw : (p :: t).Pairwise (fun a b => a.1 ≠ b.1) := by
      cases hwf with
      | obj _ h _ => exact h
    have hwfs : ∀ q ∈ p :: t, WFJ q.2 := by
      cases hwf with
      | obj _ _ h => exact h
    obtain ⟨f', rfl⟩ : ∃ f', f = f' + 1 :=
      ⟨f - 1, by have := jfuel_pos (Json.obj (p :: t)); omega⟩
    have hitems : itemsFuel (p :: t) ≤ f' := by
      rw [jfuel] at hf
      omega
    obtain ⟨T', hT⟩ :
        ∃ T', dumpsItems (p :: t) ++ 125 :: rest = 34 :: T' := by
      obtain ⟨k, v⟩ := p
      cases t with
      | nil =>
        refine ⟨k.flatMap escByte ++ [34] ++ (58 :: 32 :: dumps v ++ 125 :: rest), ?_⟩
        rw [show dumpsItems [(k, v)] = renderStr k ++ 58 :: 32 :: dumps v
          from by rw [dumpsItems], renderStr]
        simp
      | cons q t2 =>
        refine ⟨k.flatMap escByte ++ [34]
          ++ (58 :: 32 :: dumps v ++ 44 :: 32 :: dumpsItems (q :: t2) ++ 125 :: rest), ?_⟩
        rw [show dumpsItems ((k, v) :: q :: t2)
            = renderStr k ++ 58 :: 32 :: dumps v ++ 44 :: 32 :: dumpsItems (q :: t2)
          from by rw [dumpsItems], renderStr]
        simp
    have hs : skipWs (pre ++ dumps (Json.obj (p :: t)) ++ rest)
        = 123 :: (dumpsItems (p :: t) ++ 125 :: rest) := by
      rw [List.append_assoc]
      have heq : dumps (Json.obj (p :: t)) ++ rest
          = 123 :: (dumpsItems (p :: t) ++ 125 :: rest) := by
        rw [dumps]
        simp
      rw [heq]
      exact skipWs_pre_cons pre 123 _ hpre rfl
    rw [parseVal.eq_def]
    simp only [hs, hT, skipWs_cons_of_not 34 T' rfl]
    rw [if_neg (by omega : ¬(34 : Nat) = 125)]
    rw [show (34 : Nat) :: T' = [] ++ dumpsItems (p :: t) ++ 125 :: rest
      from by rw [← hT]; rfl]
    rw [parseItems_dumps (p :: t) (List.cons_ne_nil p t) hwfs f' [] rest hitems (by simp)]
    simp [objFold_id (p :: t) hpw]

theorem parseElems_dumps : ∀ (xs : List Json), xs ≠ [] → (∀ x ∈ xs, WFJ x) →
    ∀ (f : Nat) (pre rest : List Nat), elemsFuel xs ≤ f →
    (∀ b ∈ pre, isWsB b = true) →
    parseElems f (pre ++ dumpsElems xs ++ 93 :: rest) = some (xs, rest)
  | [], hne, _, _, _, _, _, _ => absurd rfl hne
  | [x], _, hwf, f, pre, rest, hf, hpre => by
    obtain ⟨f', rfl⟩ : ∃ f', f = f' + 1 :=
      ⟨f - 1, by rw [elemsFuel] at hf; omega⟩
    have hfx : jfuel x ≤ f' := by
      rw [elemsFuel] at hf
      omega
    rw [parseElems.eq_def]
    simp only [show pre ++ dumpsElems [x] ++ 93 :: rest = pre ++ dumps x ++ 93 :: rest
      from by rw [dumpsElems]]
    rw [show pre ++ dumps x ++ 93 :: rest = pre ++ dumps x ++ (93 :: rest) from rfl]
    rw [parseVal_dumps x (hwf x (List.mem_cons_self x [])) f' pre (93 :: rest) hfx hpre rfl]
    simp [skipWs_cons_of_not 93 rest rfl]
  | x :: y :: t, _, hwf, f, pre, rest, hf, hpre => by
    obtain ⟨f', rfl⟩ : ∃ f', f = f' + 1 :=
      ⟨f - 1, by rw [elemsFuel] at hf; omega⟩
    have hfx : jfuel x ≤ f' := by
      rw [elemsFuel] at hf
      omega
    have hfe : elemsFuel (y :: t) ≤ f' := by
      rw [elemsFuel] at hf
      omega
    have hv := parseVal_dumps x (hwf x (List.mem_cons_self x (y :: t))) f' pre
      (44 :: 32 :: dumpsElems (y :: t) ++ 93 :: rest) hfx hpre rfl
    simp only [List.append_assoc, List.cons_append, List.nil_append] at hv
    have hrec := parseElems_dumps (y :: t) (List.cons_ne_nil y t)
      (fun z hz => hwf z (List.mem_cons_of_mem x hz)) f' [32] rest hfe
      (by intro b hb; simp at hb; subst hb; rfl)
    simp only [List.cons_append, List.nil_append] at hrec
    rw [parseElems.eq_def]
    simp only [show pre ++ dumpsElems (x :: y :: t) ++ 93 :: rest
        = pre ++ dumps x ++ (44 :: 32 :: dumpsElems (y :: t) ++ 93 :: rest)
      from by rw [dumpsElems]; simp]
    simp [hv, skipWs_cons_of_not 44 (32 :: (dumpsElems (y :: t) ++ 93 :: rest)) rfl, hrec]

theorem parseItems_dumps : ∀ (kvs : List (List Nat × Json)), kvs ≠ [] →
    (∀ q ∈ kvs, WFJ q.2) →
    ∀ (f : Nat) (pre rest : List Nat), itemsFuel kvs ≤ f →
    (∀ b ∈ pre, isWsB b = true) →
    parseItems f (pre ++ dumpsItems kvs ++ 125 :: rest) = some (kvs, rest)
  | [], hne, _, _, _, _, _, _ => absurd rfl hne
  | [(k, v)], _, hwf, f, pre, rest, hf, hpre => by
    obtain ⟨f', rfl⟩ : ∃ f', f = f' + 1 :=
      ⟨f - 1, by rw [itemsFuel] at hf; omega⟩
    have hfv : jfuel v ≤ f' := by
      rw [itemsFuel] at hf
      omega
    have hs : skipWs (pre ++ dumpsItems [(k, v)] ++ 125 :: rest)
        = 34 :: (k.flatMap escByte ++ 34 :: (58 :: 32 :: dumps v ++ 125 :: rest)) := by
      rw [List.append_assoc]
      have heq : dumpsItems [(k, v)] ++ 125 :: rest
          = 34 :: (k.flatMap escByte ++ 34 :: (58 :: 32 :: dumps v ++ 125 :: rest)) := by
        rw [show dumpsItems [(k, v)] = renderStr k ++ 58 :: 32 :: dumps v
          from by rw [dumpsItems], renderStr]
        simp
      rw [heq]
      exact skipWs_pre_cons pre 34 _ hpre rfl
    simp only [List.append_assoc, List.cons_append, List.nil_append] at hs
    have hv := parseVal_dumps v (hwf (k, v) (List.mem_cons_self _ _)) f' [32] (125 :: rest) hfv
      (by intro b hb; simp at hb; subst hb; rfl) rfl
    simp only [List.append_assoc, List.cons_append, List.nil_append] at hv
    rw [parseItems.eq_def]
    simp [hs, parseStrBody_escape k (58 :: 32 :: (dumps v ++ 125 :: rest)),
      skipWs_cons_of_not 58 (32 :: (dumps v ++ 125 :: rest)) rfl, hv,
      skipWs_cons_of_not 125 rest rfl]
  | (k, v) :: q :: t2, _, hwf, f, pre, rest, hf, hpre => by
    obtain ⟨f', rfl⟩ : ∃ f', f = f' + 1 :=
      ⟨f - 1, by rw [itemsFuel] at hf; omega⟩
    have hfv : jfuel v ≤ f' := by
      rw [itemsFuel] at hf
      omega
    have hfi : itemsFuel (q :: t2) ≤ f' := by
      rw [itemsFuel] at hf
      omega
    have hs : skipWs (pre ++ dumpsItems ((k, v) :: q :: t2) ++ 125 :: rest)
        = 34 :: (k.flatMap escByte
          ++ 34 :: (58 :: 32 :: dumps v ++ 44 :: 32 :: dumpsItems (q :: t2) ++ 125 :: rest)) := by
      rw [List.append_assoc]
      have heq : dumpsItems ((k, v) :: q :: t2) ++ 125 :: rest
          = 34 :: (k.flatMap escByte
            ++ 34 :: (58 :: 32 :: dumps v ++ 44 :: 32 :: dumpsItems (q :: t2) ++ 125 :: rest)) := by
        rw [show dumpsItems ((k, v) :: q :: t2)
            = renderStr k ++ 58 :: 32 :: dumps v ++ 44 :: 32 :: dumpsItems (q :: t2)
          from by rw [dumpsItems], renderStr]
        simp
      rw [heq]
      exact skipWs_pre_cons pre 34 _ hpre rfl
    simp only [List.append_assoc, List.cons_append, List.nil_append] at hs
    have hv := parseVal_dumps v (hwf (k, v) (List.mem_cons_self _ _)) f' [32]
      (44 :: 32 :: dumpsItems (q :: t2) ++ 125 :: rest) hfv
      (by intro b hb; simp at hb; subst hb; rfl) rfl
    simp only [List.append_assoc, List.cons_append, List.nil_append] at hv
    have hrec := parseItems_dumps (q :: t2) (List.cons_ne_nil q t2)
      (fun z hz => hwf z (List.mem_cons_of_mem (k, v) hz)) f' [32] rest hfi
      (by intro b hb; simp at hb; subst hb; rfl)
    simp only [List.append_assoc, List.cons_append, List.nil_append] at hrec
    rw [parseItems.eq_def]
    simp [hs,
      parseStrBody_escape k (58 :: 32 :: (dumps v ++ 44 :: 32 :: (dumpsItems (q :: t2) ++ 125 :: rest))),
      skipWs_cons_of_not 58 (32 :: (dumps v ++ 44 :: 32 :: (dumpsItems (q :: t2) ++ 125 :: rest))) rfl,
      hv, skipWs_cons_of_not 44 (32 :: (dumpsItems (q :: t2) ++ 125 :: rest)) rfl, hrec]
end

mutual
theorem jfuel_le : ∀ j : Json, jfuel j ≤ (dumps j).length + 1
  | .null => by rw [jfuel]; omega
  | .bool b => by rw [jfuel]; omega
  | .num n => by rw [jfuel]; omega
  | .str s => by rw [jfuel]; omega
  | .arr xs => by
    have h := elemsFuel_le xs
    rw [jfuel, dumps]
    simp only [List.length_cons, List.length_append, List.length_singleton]
    omega
  | .obj kvs => by
    have h := itemsFuel_le kvs
    rw [jfuel, dumps]
    simp only [List.length_cons, List.length_append, List.length_singleton]
    omega

theorem elemsFuel_le : ∀ xs : List Json, elemsFuel xs ≤ (dumpsElems xs).length + 2
  | [] => by rw [elemsFuel]; omega
  | [x] => by
    have h := jfuel_le x
    rw [elemsFuel, elemsFuel, dumpsElems]
    omega
  | x :: y :: t => by
    have h1 := jfuel_le x
    have h2 := elemsFuel_le (y :: t)
    rw [elemsFuel, dumpsElems]
    simp only [List.length_append, List.length_cons]
    omega

theorem itemsFuel_le : ∀ kvs : List (List Nat × Json), itemsFuel kvs ≤ (dumpsItems kvs).length + 2
  | [] => by rw [itemsFuel]; omega
  | [(k, v)] => by
    have h := jfuel_le v
    rw [itemsFuel, itemsFuel, dumpsItems]
    simp only [List.length_append, List.length_cons]
    omega
  | (k, v) :: q :: t2 => by
    have h1 := jfuel_le v
    have h2 := itemsFuel_le (q :: t2)
    rw [itemsFuel, dumpsItems]
    simp only [List.length_append, List.length_cons]
    omega
end

/-- Parsing the serialization of any well-formed value gives the value
back: the model-level statement that `ujson.loads` inverts `ujson.dumps`. -/
theorem loadsE_dumps (j : Json) (h : WFJ j) : loadsE (dumps j) = .ok j := by
  have hp := parseVal_dumps j h ((dumps j).length + 1) [] []
    (by have := jfuel_le j; omega) (by simp) rfl
  simp only [List.nil_append, List.append_nil] at hp
  simp [loadsE, hp, skipWs]

/-- Receiving a sent message returns the message: frame decode then
payload parse invert `send_obj`. -/
theorem recv_obj_send_obj (j : Json) (h : WFJ j) (hlen : (dumps j).length < 4294967296)
    (rest : List Nat) : recv_obj (send_obj j ++ rest) = some (.ok j, rest) := by
  rw [recv_obj, show send_obj j ++ rest = encode (dumps j) ++ rest from rfl,
    recvFrame_encode (dumps j) rest hlen]
  simp [loadsE_dumps j h]

/-! ## Serving loop lemmas -/

/-- Sleep-action test. -/
def isSleepAct : LoopAct → Bool
  | .sleep _ => true
  | .write _ => false
  | .failedWrite _ => false
  | .mkFlag => false
  | .reboot => false

/-- Whether a trace contains a pause. -/
def hasSleep (l : List LoopAct) : Bool := l.any isSleepAct

theorem serve_cons (e : IterEnv) (es : List IterEnv) :
    serve (e :: es) = serveStep e ++ serve es := rfl

/-- Every action of one loop iteration is a write or a failed write: the
loop body never sleeps, never creates the maintenance marker and never
reboots. -/
theorem serveStep_shape (e : IterEnv) :
    ∀ a ∈ serveStep e, (∃ j, a = LoopAct.write j) ∨ ∃ j, a = LoopAct.failedWrite j := by
  intro a ha
  have herr : ∀ m, a ∈ errorPath e m →
      (∃ j, a = LoopAct.write j) ∨ ∃ j, a = LoopAct.failedWrite j := by
    intro m hm
    unfold errorPath at hm
    by_cases hw : e.errWriteFault <;> simp [hw] at hm <;> subst hm
    · exact Or.inr ⟨excObj m, rfl⟩
    · exact Or.inl ⟨excObj m, rfl⟩
  unfold serveStep at ha
  split at ha
  · exact herr _ ha
  · split at ha
    · exact herr _ ha
    · split at ha
      · exact herr _ ha
      · split at ha
        · rcases List.mem_cons.1 ha with h | h
          · exact Or.inr ⟨_, h⟩
          · exact herr _ h
        · simp only [List.mem_singleton] at ha
          exact Or.inl ⟨_, ha⟩

theorem hasSleep_serveStep (e : IterEnv) : hasSleep (serveStep e) = false := by
  rw [hasSleep, List.any_eq_false]
  intro a ha
  rcases serveStep_shape e a ha with ⟨j, rfl⟩ | ⟨j, rfl⟩ <;> simp [isSleepAct]

theorem serveStep_no_flag (e : IterEnv) : LoopAct.mkFlag ∉ serveStep e := by
  intro hmem
  rcases serveStep_shape e _ hmem with ⟨j, hj⟩ | ⟨j, hj⟩ <;> cases hj

theorem serveStep_no_reboot (e : IterEnv) : LoopAct.reboot ∉ serveStep e := by
  intro hmem
  rcases serveStep_shape e _ hmem with ⟨j, hj⟩ | ⟨j, hj⟩ <;> cases hj

/-- A fault-free-transport iteration emits exactly one written response. -/
theorem serveStep_ok (e : IterEnv) (h1 : e.respWriteFault = none)
    (h2 : e.errWriteFault = false) :
    serveStep e = [LoopAct.write (iterOut e)] := by
  unfold serveStep iterOut errorPath
  cases hr : e.readFault with
  | some m => simp [h2]
  | none =>
    cases hl : loadsE e.payload with
    | error m => simp [h2]
    | ok req =>
      cases hd : dispatchE e.ticks e.heapFree req with
      | error m => simp [h2, hd]
      | ok resp => simp [h1, hd]

/-! ## Claims -/

/-- C4: the boot-mode decision is first-match-wins.  When storage works and
the marker exists, the decision is Maintenance and the marker survives only
when `os.remove` failed (deletion failure is non-fatal).  Otherwise the pin
decides: low means Maintenance, high means Production.  A faulting probe
falls through, and if the pin probe also faults the decision defaults to
Production. -/
theorem C4_boot_first_match (e : BootEnv) :
    (e.listdirFault = false → e.flagPresent = true →
      (in_maintenance e).1 = true ∧ (in_maintenance e).2 = e.removeFault)
  ∧ ((e.listdirFault = true ∨ e.flagPresent = false) → e.pinFault = false →
      (in_maintenance e).1 = e.pinLow)
  ∧ ((e.listdirFault = true ∨ e.flagPresent = false) → e.pinFault = true →
      (in_maintenance e).1 = false) := by
  refine ⟨fun h1 h2 => ?_, fun h1 h2 => ?_, fun h1 h2 => ?_⟩
  · simp [in_maintenance, h1, h2]
  · rcases h1 with h | h <;> simp [in_maintenance, h, h2]
  · rcases h1 with h | h <;> simp [in_maintenance, h, h2]

theorem C4_boot_first_match_witness :
    (in_maintenance ⟨false, true, false, false, false⟩).1 = true ∧
    (in_maintenance ⟨false, true, false, false, false⟩).2 = false :=
  (C4_boot_first_match ⟨false, true, false, false, false⟩).1 rfl rfl

/-- C5 counterexample: the claim says the marker is always removed before
the selector returns and is never honored by two consecutive boots.  With
the marker present and `os.remove` raising `OSError` (which the code
swallows), the first boot returns Maintenance with the marker still on
disk, and the following boot with the pin held high returns Maintenance
again. -/
theorem C5_counterexample :
    (in_maintenance ⟨false, true, true, false, false⟩).1 = true ∧
    (in_maintenance ⟨false, true, true, false, false⟩).2 = true ∧
    (in_maintenance ⟨false, (in_maintenance ⟨false, true, true, false, false⟩).2,
        true, false, false⟩).1 = true := by
  exact ⟨rfl, rfl, rfl⟩

/-- C5 amended: the one-shot invariant holds whenever the marker deletion
succeeds: the selector observes the marker, removes it, returns
Maintenance, and a following boot with the pin held high returns
Production. -/
theorem C5_one_shot (e e2 : BootEnv)
    (hls : e.listdirFault = false) (hfl : e.flagPresent = true)
    (hrm : e.removeFault = false)
    (h2 : e2.flagPresent = (in_maintenance e).2) (hpin : e2.pinLow = false) :
    (in_maintenance e).1 = true ∧ (in_maintenance e).2 = false ∧
    (in_maintenance e2).1 = false := by
  have hdec : in_maintenance e = (true, false) := by
    simp [in_maintenance, hls, hfl, hrm]
  have h2f : e2.flagPresent = false := by rw [h2, hdec]
  refine ⟨by rw [hdec], by rw [hdec], ?_⟩
  simp [in_maintenance, h2f, hpin]

theorem C5_one_shot_witness :
    (in_maintenance ⟨false, true, false, false, true⟩).1 = true ∧
    (in_maintenance ⟨false, true, false, false, true⟩).2 = false ∧
    (in_maintenance ⟨false, false, false, false, false⟩).1 = false :=
  C5_one_shot ⟨false, true, false, false, true⟩ ⟨false, false, false, false, false⟩
    rfl rfl rfl rfl rfl

/-- C9: transport selection binds to the first available channel in the
fixed priority order: the `usb_cdc` data channel, then the console channel,
then the UART fallback at 115200 baud on pins GP0/GP1; and the channel of a
run does not depend on the iteration trace (it is chosen once at
initialization). -/
theorem C9_transport_priority (env : CdcEnv) (es : List IterEnv) :
    (env.present = true → env.data = true → Transport.init env = Channel.usbData)
  ∧ (env.present = true → env.data = false → env.console = true →
      Transport.init env = Channel.usbConsole)
  ∧ ((env.present = false ∨ (env.data = false ∧ env.console = false)) →
      Transport.init env = Channel.uart 0 115200 0 1)
  ∧ (mainModel env es).1 = Transport.init env := by
  refine ⟨fun h1 h2 => ?_, fun h1 h2 h3 => ?_, fun h => ?_, rfl⟩
  · simp [Transport.init, h1, h2]
  · simp [Transport.init, h1, h2, h3]
  · rcases h with h | ⟨h1, h2⟩ <;> simp [Transport.init, *]

theorem C9_transport_priority_witness :
    Transport.init ⟨true, true, true⟩ = Channel.usbData ∧
    (mainModel ⟨true, true, true⟩ []).1 = Transport.init ⟨true, true, true⟩ :=
  ⟨(C9_transport_priority ⟨true, true, true⟩ []).1 rfl rfl,
   (C9_transport_priority ⟨true, true, true⟩ []).2.2.2⟩

/-- C1 counterexample: the claim says a header declaring more than 65536
bytes is rejected without consuming that many payload bytes.  The decoder
has no such check: on a header declaring 65537 bytes it consumes all 65537
payload bytes and returns them as the frame payload. -/
theorem C1_counterexample :
    recvFrame (pack_be32 65537 ++ List.replicate 65537 0)
      = some (List.replicate 65537 0, []) := by
  have hlen : (65537 : Nat) ≤ (List.replicate 65537 (0 : Nat)).length := by
    rw [List.length_replicate]
  have h := recvFrame_pack 65537 (List.replicate 65537 0) (by norm_num) hlen
  rw [show (List.replicate 65537 (0 : Nat)).take 65537 = List.replicate 65537 0 from by
      rw [List.take_replicate, Nat.min_self],
    show (List.replicate 65537 (0 : Nat)).drop 65537 = [] from by
      rw [List.drop_replicate, Nat.sub_self, List.replicate_zero]] at h
  exact h

/-- C1 amended: `recv_obj` performs no validation of the declared length.
For every header value (including 0 and values above 65536) it reads
exactly that many payload bytes and hands them to the JSON parser; a
zero-length header yields an empty payload whose parse then raises the
decode error. -/
theorem C1_no_length_check (v : Nat) (rest : List Nat)
    (hv : v < 4294967296) (hlen : v ≤ rest.length) :
    recvFrame (pack_be32 v ++ rest) = some (rest.take v, rest.drop v) ∧
    recv_obj (pack_be32 0 ++ rest) = some (.error jsonErrMsg, rest) := by
  refine ⟨recvFrame_pack v rest hv hlen, ?_⟩
  rw [recv_obj, recvFrame_pack 0 rest (by norm_num) (Nat.zero_le _)]
  simp
  rfl

theorem C1_no_length_check_witness :
    recvFrame (pack_be32 2 ++ [7, 8, 9]) = some ([7, 8], [9]) ∧
    recv_obj (pack_be32 0 ++ [7, 8, 9]) = some (.error jsonErrMsg, [7, 8, 9]) := by
  have h := C1_no_length_check 2 [7, 8, 9] (by norm_num) (by norm_num)
  simpa using h

/-- C2 counterexample: the claim says an `enter_maintenance` request
creates the maintenance marker, reboots, and sends no response.  The
dispatcher has no such handler: the request falls to the unknown-command
branch, one `UNKNOWN_CMD` error response is written, and the iteration
performs no marker creation and no reboot. -/
theorem C2_counterexample :
    dispatch 0 0 [(strBytes "type", Json.str (strBytes "enter_maintenance"))]
      = unknownCmdResp (some (Json.str (strBytes "enter_maintenance"))) ∧
    serveStep ⟨none, dumps (Json.obj [(strBytes "type",
        Json.str (strBytes "enter_maintenance"))]), 0, 0, none, false⟩
      = [LoopAct.write (unknownCmdResp (some (Json.str (strBytes "enter_maintenance"))))] ∧
    LoopAct.mkFlag ∉ serveStep ⟨none, dumps (Json.obj [(strBytes "type",
        Json.str (strBytes "enter_maintenance"))]), 0, 0, none, false⟩ ∧
    LoopAct.reboot ∉ serveStep ⟨none, dumps (Json.obj [(strBytes "type",
        Json.str (strBytes "enter_maintenance"))]), 0, 0, none, false⟩ :=
  ⟨rfl, rfl, serveStep_no_flag _, serveStep_no_reboot _⟩

/-- C2 amended: a request whose `"type"` is `"enter_maintenance"` is
answered with the `UNKNOWN_CMD` error response like any unrecognized
command, and no iteration of the loop ever creates the maintenance marker
or reboots. -/
theorem C2_enter_maintenance_answered (ticks heapFree : Nat)
    (req : List (List Nat × Json)) (e : IterEnv)
    (h : lookupKey req (strBytes "type") = some (Json.str (strBytes "enter_maintenance"))) :
    dispatch ticks heapFree req
      = unknownCmdResp (some (Json.str (strBytes "enter_maintenance"))) ∧
    LoopAct.mkFlag ∉ serveStep e ∧ LoopAct.reboot ∉ serveStep e := by
  refine ⟨?_, serveStep_no_flag e, serveStep_no_reboot e⟩
  unfold dispatch
  rw [h]
  rfl

theorem C2_enter_maintenance_answered_witness :
    dispatch 5 7 [(strBytes "type", Json.str (strBytes "enter_maintenance"))]
      = unknownCmdResp (some (Json.str (strBytes "enter_maintenance"))) :=
  (C2_enter_maintenance_answered 5 7
    [(strBytes "type", Json.str (strBytes "enter_maintenance"))]
    ⟨none, [], 0, 0, none, false⟩ rfl).1

/-- C3 counterexample: the claim says the loop continues after a short
pause.  On a faulting read the iteration writes the error response and
performs no pause at all: its action trace contains no sleep. -/
theorem C3_counterexample :
    serveStep ⟨some (strBytes "bus error"), [], 0, 0, none, false⟩
      = [LoopAct.write (excObj (strBytes "bus error"))] ∧
    hasSleep (serveStep ⟨some (strBytes "bus error"), [], 0, 0, none, false⟩) = false :=
  ⟨rfl, rfl⟩

/-- C3 amended: every exception is caught at the loop boundary, a
best-effort `EXC` response is attempted (a failure of that write is
swallowed as a `failedWrite`), the loop always continues with the next
iteration, and no iteration pauses. -/
theorem C3_loop_survives (e : IterEnv) (es : List IterEnv) (m : List Nat) :
    serve (e :: es) = serveStep e ++ serve es ∧
    (e.readFault = some m →
      serveStep e = if e.errWriteFault then [LoopAct.failedWrite (excObj m)]
        else [LoopAct.write (excObj m)]) ∧
    hasSleep (serveStep e) = false := by
  refine ⟨rfl, fun h => ?_, hasSleep_serveStep e⟩
  unfold serveStep
  rw [h]
  rfl

theorem C3_loop_survives_witness :
    serve [⟨some (strBytes "io fail"), [], 0, 0, none, false⟩]
      = serveStep ⟨some (strBytes "io fail"), [], 0, 0, none, false⟩ ++ serve [] ∧
    serveStep ⟨some (strBytes "io fail"), [], 0, 0, none, false⟩
      = [LoopAct.write (excObj (strBytes "io fail"))] ∧
    hasSleep (serveStep ⟨some (strBytes "io fail"), [], 0, 0, none, false⟩) = false := by
  obtain ⟨h1, h2, h3⟩ :=
    C3_loop_survives ⟨some (strBytes "io fail"), [], 0, 0, none, false⟩ [] (strBytes "io fail")
  exact ⟨h1, by simpa using h2 rfl, h3⟩

/-- C7 counterexample: the claim says a payload that fails to parse is
answered with `UNKNOWN_CMD`.  On the unparseable payload `x` the loop
instead answers with the generic `EXC` error response (whose `code` field
is `EXC`), because the parse error raises inside `recv_obj` and is caught
at the loop boundary before the dispatcher runs. -/
theorem C7_counterexample :
    serveStep ⟨none, strBytes "x", 3, 4, none, false⟩
      = [LoopAct.write (excObj jsonErrMsg)] ∧
    loadsE (strBytes "x") = .error jsonErrMsg ∧
    (match excObj jsonErrMsg with
      | Json.obj kvs => lookupKey kvs (strBytes "code")
      | _ => none) = some (Json.str (strBytes "EXC")) :=
  ⟨rfl, rfl, rfl⟩

/-- C7 amended: a frame whose payload fails to parse raises inside
`recv_obj`; the loop boundary answers with the `EXC` error path (one
written `EXC` response, or a swallowed failed write), and the dispatcher is
never invoked for it. -/
theorem C7_parse_failure_exc (e : IterEnv) (m : List Nat)
    (hr : e.readFault = none) (hp : loadsE e.payload = .error m) :
    serveStep e = errorPath e m ∧
    errorPath e m = (if e.errWriteFault then [LoopAct.failedWrite (excObj m)]
      else [LoopAct.write (excObj m)]) := by
  refine ⟨?_, rfl⟩
  unfold serveStep
  rw [hr, hp]

theorem C7_parse_failure_exc_witness :
    serveStep ⟨none, strBytes "x", 0, 0, none, false⟩
      = errorPath ⟨none, strBytes "x", 0, 0, none, false⟩ jsonErrMsg :=
  (C7_parse_failure_exc ⟨none, strBytes "x", 0, 0, none, false⟩ jsonErrMsg rfl rfl).1

/-- C8 counterexample: the claim says an `enter_maintenance` request emits
zero responses and ends the run via reboot.  The loop answers it with one
`UNKNOWN_CMD` error response like any unknown command and keeps serving. -/
theorem C8_counterexample :
    serve [⟨none, dumps (Json.obj [(strBytes "type",
        Json.str (strBytes "enter_maintenance"))]), 0, 0, none, false⟩]
      = [LoopAct.write (unknownCmdResp (some (Json.str (strBytes "enter_maintenance"))))] :=
  rfl

/-- C8 amended: over any trace whose transport writes succeed, the loop
emits exactly one response per iteration, in iteration order: the served
actions are the per-iteration outputs in sequence, with no exception for
`enter_maintenance` (which is answered like any unknown command). -/
theorem C8_responses_in_order (es : List IterEnv)
    (h : ∀ e ∈ es, e.respWriteFault = none ∧ e.errWriteFault = false) :
    serve es = es.map (fun e => LoopAct.write (iterOut e)) := by
  induction es with
  | nil => rfl
  | cons e t ih =>
    obtain ⟨h1, h2⟩ := h e (List.mem_cons_self e t)
    rw [serve_cons, serveStep_ok e h1 h2, List.map_cons,
      ih (fun x hx => h x (List.mem_cons_of_mem e hx))]
    rfl

theorem C8_responses_in_order_witness :
    serve [⟨none, dumps (Json.obj [(strBytes "type", Json.str (strBytes "ping"))]),
        5, 9, none, false⟩]
      = [LoopAct.write (iterOut ⟨none, dumps (Json.obj [(strBytes "type",
          Json.str (strBytes "ping"))]), 5, 9, none, false⟩)] := by
  have h := C8_responses_in_order
    [⟨none, dumps (Json.obj [(strBytes "type", Json.str (strBytes "ping"))]), 5, 9, none, false⟩]
    (by
      intro e he
      simp only [List.mem_singleton] at he
      subst he
      exact ⟨rfl, rfl⟩)
  simpa using h

/-- C6: frame codec round-trip.  Encoding prepends a 4-byte big-endian
header equal to the payload length with no upper-bound check; decoding the
encoding of any payload within the receive limit returns the payload; and
at the message level, receiving what `send_obj` emitted returns the
original structured message. -/
theorem C6_roundtrip (p rest : List Nat) (j : Json)
    (hp0 : 0 < p.length) (hp : p.length ≤ 65536)
    (hj : WFJ j) (hlen : (dumps j).length < 4294967296) :
    (∀ q : List Nat, encode q = pack_be32 q.length ++ q) ∧
    recvFrame (encode p ++ rest) = some (p, rest) ∧
    recv_obj (send_obj j ++ rest) = some (.ok j, rest) :=
  ⟨fun _ => rfl, recvFrame_encode p rest (by omega), recv_obj_send_obj j hj hlen rest⟩

theorem C6_roundtrip_witness :
    recvFrame (encode [104, 105] ++ []) = some ([104, 105], []) ∧
    recv_obj (send_obj (Json.obj [(strBytes "type", Json.str (strBytes "ping"))]) ++ [])
      = some (.ok (Json.obj [(strBytes "type", Json.str (strBytes "ping"))]), []) := by
  have hwf : WFJ (Json.obj [(strBytes "type", Json.str (strBytes "ping"))]) := by
    refine WFJ.obj _ ?_ ?_
    · simp
    · intro p hp
      simp only [List.mem_singleton] at hp
      subst hp
      exact WFJ.str _
  have h := C6_roundtrip [104, 105] [] (Json.obj [(strBytes "type", Json.str (strBytes "ping"))])
    (by norm_num) (by norm_num) hwf (by decide)
  exact ⟨h.2.1, h.2.2⟩

/-- C10: every frame the device emits is well-formed.  For any message
whose serialization is shorter than 2^32 bytes, `send_obj` writes a 4-byte
big-endian header whose value is exactly the payload length, followed by
that payload, and the length is never zero because the serialization of any
value is non-empty. -/
theorem C10_wellformed_frames (j : Json) (hlen : (dumps j).length < 4294967296) :
    send_obj j = pack_be32 (dumps j).length ++ dumps j ∧
    unpack_be32 ((send_obj j).take 4) = (dumps j).length ∧
    (send_obj j).drop 4 = dumps j ∧
    0 < (dumps j).length := by
  have hne : 0 < (dumps j).length := by
    obtain ⟨b, t, he, _⟩ := dumps_head j
    simp [he]
  have h4 : (pack_be32 (dumps j).length).length = 4 := rfl
  have ht : (send_obj j).take 4 = pack_be32 (dumps j).length := by
    rw [show send_obj j = pack_be32 (dumps j).length ++ dumps j from rfl, ← h4,
      List.take_left]
  have hd : (send_obj j).drop 4 = dumps j := by
    rw [show send_obj j = pack_be32 (dumps j).length ++ dumps j from rfl, ← h4,
      List.drop_left]
  exact ⟨rfl, by rw [ht, unpack_pack _ hlen], hd, hne⟩

theorem C10_wellformed_frames_witness :
    unpack_be32 ((send_obj Json.null).take 4) = (dumps Json.null).length ∧
    0 < (dumps Json.null).length :=
  ⟨(C10_wellformed_frames Json.null (by decide)).2.1,
   (C10_wellformed_frames Json.null (by decide)).2.2.2⟩
